import Mathlib

/-!
Verification of the User Directory Service of the nestjs-backend repository
(`src/users/users.service.ts`, entity `src/users/entities/user.entity.ts`,
DTO `src/users/dto/create-user.dto.ts`).

The service is embedded shallowly:

* A `User` record mirrors the TypeORM entity.  The `password` column is
  declared `select: false` in the entity, so loads that do not name it
  explicitly come back without it; the field is therefore modelled as
  `Option String` (`none` = column not selected / field stripped,
  `some p` = value present).  In the persisted store the field is always
  `some _`.
* The persistence collaborator (TypeORM repository over Postgres) is
  modelled as a list of rows plus the id-generation counter: insertion
  appends, `findOne where` returns the first match, `save` of an existing
  row updates the row with the same id skipping undefined (= `none`)
  columns, `delete` removes matching rows and reports the affected count.
* Timestamp columns (`@CreateDateColumn` / `@UpdateDateColumn`) are driven
  by an explicit clock argument `t : Nat` passed to every mutating
  operation: on insert both `createdAt` and `updatedAt` are set to `t`,
  on update only `updatedAt` is refreshed.
* JavaScript `Date` values are modelled as their source strings
  (`new Date(s)` is the identity embedding); JavaScript string truthiness
  (`""` is falsy) is modelled by `truthy`.
* Exceptions (`ConflictException`, `BadRequestException`,
  `NotFoundException`) become an `Err` sum; each operation returns
  `Except Err α × DB`, the state unchanged when it throws.
-/

/-- Error kinds thrown by the service layer.  `DuplicateEmail` is the
`ConflictException`, `WeakPassword` the `BadRequestException` of the
strength check, `NotFound` the `NotFoundException`, and `Validation` the
`BadRequestException` raised by the global validation pipe on a DTO that
violates its decorators. -/
inductive Err where
  | DuplicateEmail
  | WeakPassword
  | NotFound
  | Validation
deriving Repr, DecidableEq

/-- The `User` entity (`user.entity.ts`).  `password` is the
`select: false` column, hence optional in loaded values.  Timestamps are
abstract clock values. -/
structure User where
  id : Nat
  firstName : String
  lastName : String
  email : String
  password : Option String
  roles : List String
  dateOfBirth : Option String
  phoneNumber : Option String
  isActive : Bool
  createdAt : Nat
  updatedAt : Nat
deriving Repr, DecidableEq

/-- `CreateUserDto` (`create-user.dto.ts`): required name/email/password,
optional roles, date of birth and phone number. -/
structure CreateUserDto where
  firstName : String
  lastName : String
  email : String
  password : String
  roles : Option (List String)
  dateOfBirth : Option String
  phoneNumber : Option String
deriving Repr, DecidableEq

/-- Modelled from the spec: `UpdateUserDto` (`dto/update-user.dto.ts`) is
not among the provided sources; the spec states that `update(id, partial)`
takes "any subset of the mutable fields (excludes `id`, `createdAt`)", i.e.
the standard `PartialType(CreateUserDto)` with every field optional, which
is also how the unit tests use it. -/
structure UpdateUserDto where
  firstName : Option String
  lastName : Option String
  email : Option String
  password : Option String
  roles : Option (List String)
  dateOfBirth : Option String
  phoneNumber : Option String
deriving Repr, DecidableEq

/-- The persistence collaborator: the rows of the `users` table in
insertion order, and the next value of the generated-id sequence. -/
structure DB where
  users : List User
  nextId : Nat
deriving Repr, DecidableEq

/-- JavaScript truthiness of a string: only `""` is falsy. -/
def truthy (s : String) : Bool := s != ""

/-- `repository.findOne({ where: { email } })`: first row with the email. -/
def findByEmailRaw (users : List User) (e : String) : Option User :=
  users.find? (fun u => u.email == e)

/-- `repository.findOne({ where: { id } })`: first row with the id. -/
def findByIdRaw (users : List User) (i : Nat) : Option User :=
  users.find? (fun u => u.id == i)

/-- Regex `/[A-Z]/.test(password)`. -/
def hasUpperCase (p : String) : Bool :=
  p.toList.any (fun c => 'A' ≤ c && c ≤ 'Z')

/-- Regex `/[a-z]/.test(password)`. -/
def hasLowerCase (p : String) : Bool :=
  p.toList.any (fun c => 'a' ≤ c && c ≤ 'z')

/-- Regex `/\d/.test(password)`. -/
def hasNumbers (p : String) : Bool :=
  p.toList.any (fun c => '0' ≤ c && c ≤ '9')

/-- The punctuation set of the regex in `isPasswordStrong`
(`!@#$%^&*(),.?":\x7b\x7d|<>`). -/
def specialChars : List Char := "!@#$%^&*(),.?\":\x7b\x7d|<>".toList

/-- Regex `/[!@#$%^&*(),.?":\x7b\x7d|<>]/.test(password)`. -/
def hasSpecialChar (p : String) : Bool :=
  p.toList.any (fun c => specialChars.contains c)

/-- `UsersService.isPasswordStrong`. -/
def isPasswordStrong (p : String) : Bool :=
  hasUpperCase p && hasLowerCase p && hasNumbers p && hasSpecialChar p

/-- `UsersService.hashPassword`: the source returns the password as-is
("For demo purposes, we'll just return the password as-is"). -/
def hashPassword (p : String) : String := p

/-- The destructuring `const \x7b password: _, ...userWithoutPassword \x7d = u`
applied at every public return point. -/
def stripPassword (u : User) : User := { u with password := none }

/-- The entity assembled in `UsersService.create` by
`repository.create(\x7b ...createUserDto, password: hashedPassword, ... \x7d)`
together with what the insert fills in: the generated `id`, the column
default `isActive = true`, and the two timestamp columns set to the
clock.  `roles := createUserDto.roles || ['user']`: an array — even an
empty one — is truthy in JavaScript, so only an absent field falls back
to `['user']`.  `dateOfBirth` is converted by `new Date(...)` (the
identity under the date model) only when truthy. -/
def newUser (nid : Nat) (t : Nat) (dto : CreateUserDto) : User :=
  { id := nid
    firstName := dto.firstName
    lastName := dto.lastName
    email := dto.email
    password := some (hashPassword dto.password)
    roles := dto.roles.getD ["user"]
    dateOfBirth :=
      match dto.dateOfBirth with
      | some s => if truthy s then some s else none
      | none => none
    phoneNumber := dto.phoneNumber
    isActive := true
    createdAt := t
    updatedAt := t }

/-- `UsersService.create`.  Checks email uniqueness, then password
strength, then builds the entity and saves it (insert: append, bump the
id sequence), returning the saved entity with the password stripped. -/
def create (db : DB) (t : Nat) (dto : CreateUserDto) :
    Except Err User × DB :=
  match findByEmailRaw db.users dto.email with
  | some _ => (.error .DuplicateEmail, db)
  | none =>
    if !isPasswordStrong dto.password then
      (.error .WeakPassword, db)
    else
      let user := newUser db.nextId t dto
      let db' : DB := { users := db.users ++ [user], nextId := db.nextId + 1 }
      (.ok (stripPassword user), db')

/-- `UsersService.findAll`: every row, selected without `password`,
in table order. -/
def findAll (db : DB) : List User :=
  db.users.map stripPassword

/-- `UsersService.findByActiveStatus`: rows with the given `isActive`,
selected without `password`. -/
def findByActiveStatus (db : DB) (active : Bool) : List User :=
  (db.users.filter (fun u => u.isActive == active)).map stripPassword

/-- `UsersService.findOne`: row by id selected without `password`;
throws `NotFound` when absent. -/
def findOne (db : DB) (i : Nat) : Except Err User :=
  match findByIdRaw db.users i with
  | some u => .ok (stripPassword u)
  | none => .error .NotFound

/-- `UsersService.findByEmail`: row by email selected without
`password`, or `null`. -/
def findByEmail (db : DB) (e : String) : Option User :=
  (findByEmailRaw db.users e).map stripPassword

/-- `UsersService.findByEmailForAuth`: row by email with the `password`
column explicitly selected. -/
def findByEmailForAuth (db : DB) (e : String) : Option User :=
  findByEmailRaw db.users e

/-- How `repository.save` writes one existing row from the entity `u`:
every defined column of the entity overwrites the row, an undefined
(`none`) `password` is skipped, `createdAt` (insert-only column) is
never rewritten, and `@UpdateDateColumn` refreshes `updatedAt` to the
clock. -/
def mergeRow (u : User) (t : Nat) (old : User) : User :=
  { u with
    password := u.password.or old.password
    createdAt := old.createdAt
    updatedAt := t }

/-- `repository.save` on an entity that carries the id of an existing
row: updates the row with that id and returns the saved entity (with
its `updatedAt` refreshed) together with the new table. -/
def saveExisting (db : DB) (t : Nat) (u : User) : User × DB :=
  let users' := db.users.map (fun old => if old.id == u.id then mergeRow u t old else old)
  ({ u with updatedAt := t }, { db with users := users' })

/-- The guard `if (updateUserDto.email && updateUserDto.email !== user.email)`
followed by the duplicate lookup in `UsersService.update`: a truthy email
that differs from the current one and is already held by some row. -/
def emailConflictCheck (users : List User) (current : User)
    (dto : UpdateUserDto) : Bool :=
  match dto.email with
  | some e => truthy e && e != current.email && (findByEmailRaw users e).isSome
  | none => false

/-- `Object.assign(user, updateUserDto)` followed by the conditional
`dateOfBirth` conversion (`new Date` is the identity under the date
model): every field present on the DTO overwrites the entity, absent
fields are untouched.  The DTO has no `id`, `isActive`, `createdAt` or
`updatedAt`, so those are untouched by construction. -/
def assignDto (user : User) (dto : UpdateUserDto) : User :=
  { user with
    firstName := dto.firstName.getD user.firstName
    lastName := dto.lastName.getD user.lastName
    email := dto.email.getD user.email
    password := dto.password.or user.password
    roles := dto.roles.getD user.roles
    dateOfBirth := match dto.dateOfBirth with
      | some s => some s
      | none => user.dateOfBirth
    phoneNumber := dto.phoneNumber.or user.phoneNumber }

/-- `UsersService.update`.  Loads the row (without the `select: false`
password), throws `NotFound` when absent, throws `DuplicateEmail` on an
email conflict, otherwise assigns the DTO onto the entity and saves,
returning the saved entity stripped. -/
def update (db : DB) (t : Nat) (i : Nat) (dto : UpdateUserDto) :
    Except Err User × DB :=
  match findByIdRaw db.users i with
  | none => (.error .NotFound, db)
  | some stored =>
    let user := { stored with password := none }
    if emailConflictCheck db.users user dto then
      (.error .DuplicateEmail, db)
    else
      let assigned := assignDto user dto
      let (saved, db') := saveExisting db t assigned
      (.ok (stripPassword saved), db')

/-- `UsersService.remove`: `repository.delete(id)` removes every row with
the id; when the affected count is 0, throws `NotFound`. -/
def remove (db : DB) (i : Nat) : Except Err Unit × DB :=
  if (db.users.filter (fun u => !(u.id == i))).length == db.users.length then
    (.error .NotFound, db)
  else
    (.ok (), { db with users := db.users.filter (fun u => !(u.id == i)) })

/-- `UsersService.deactivate`: load (password unselected), throw
`NotFound` when absent, set `isActive := false`, save, strip. -/
def deactivate (db : DB) (t : Nat) (i : Nat) : Except Err User × DB :=
  match findByIdRaw db.users i with
  | none => (.error .NotFound, db)
  | some stored =>
    let user := { stored with password := none, isActive := false }
    let (saved, db') := saveExisting db t user
    (.ok (stripPassword saved), db')

/-- `UsersService.activate`: load (password unselected), throw
`NotFound` when absent, set `isActive := true`, save, strip. -/
def activate (db : DB) (t : Nat) (i : Nat) : Except Err User × DB :=
  match findByIdRaw db.users i with
  | none => (.error .NotFound, db)
  | some stored =>
    let user := { stored with password := none, isActive := true }
    let (saved, db') := saveExisting db t user
    (.ok (stripPassword saved), db')

/-- The `@IsIn(['user', 'admin', 'moderator'], \x7b each: true \x7d)`
decorator check on one role label. -/
def validRole (r : String) : Bool :=
  r == "user" || r == "admin" || r == "moderator"

/-- The decorator checks of `CreateUserDto` that bear on the claims:
`@MinLength(2)`/`@IsNotEmpty` on the names, `@MinLength(8)` on the
password, and `@IsOptional` + `@IsIn(..., each)` on the roles (an empty
array passes: `each` quantifies over its elements).  The `@IsEmail` and
`@IsDateString` format predicates are validator.js library code outside
this repository and no claim depends on them, so they are not modelled. -/
def validateCreateDto (dto : CreateUserDto) : Bool :=
  decide (2 ≤ dto.firstName.length) &&
  decide (2 ≤ dto.lastName.length) &&
  decide (8 ≤ dto.password.length) &&
  (match dto.roles with
   | none => true
   | some rs => rs.all validRole)

/-- The POST /users route: the global validation pipe applies the DTO
decorators and rejects the request before the service runs. -/
def createEndpoint (db : DB) (t : Nat) (dto : CreateUserDto) :
    Except Err User × DB :=
  if validateCreateDto dto then create db t dto
  else (.error .Validation, db)

/-- Well-formedness delegated to the persistence collaborator: primary
keys are pairwise distinct and below the generated-id counter. -/
def wfDB (db : DB) : Prop :=
  (db.users.map (fun u => u.id)).Nodup ∧ ∀ u ∈ db.users, u.id < db.nextId

instance : DecidablePred wfDB := fun db => by
  unfold wfDB; infer_instance

/-! ### Helper lemmas about the repository model -/

/-- A filter keeps the whole list exactly when every element passes. -/
theorem filter_length_eq_iff {α : Type} (p : α → Bool) (l : List α) :
    (l.filter p).length = l.length ↔ ∀ a ∈ l, p a = true := by
  induction l with
  | nil => simp
  | cons a as ih =>
    by_cases h : p a = true
    · simp [List.filter_cons, h, ih]
    · simp only [List.filter_cons, h, Bool.false_eq_true, if_false, List.length_cons]
      constructor
      · intro hlen
        exact absurd hlen (Nat.ne_of_lt (Nat.lt_succ_of_le (List.length_filter_le _ _)))
      · intro hall
        exact absurd (hall a (List.mem_cons_self a as)) h

/-- Replacing, in place, every row whose id is `i` commutes with the
id lookup, provided the replacement keeps the id. -/
theorem findByIdRaw_map_replace (users : List User) (i : Nat) (m : User → User)
    (hid : ∀ u, u.id = i → (m u).id = i) :
    findByIdRaw (users.map fun old => if old.id == i then m old else old) i =
      (findByIdRaw users i).map m := by
  induction users with
  | nil => rfl
  | cons a as ih =>
    unfold findByIdRaw at ih ⊢
    rw [List.map_cons, List.find?_cons, List.find?_cons]
    cases hb : (a.id == i) with
    | true =>
      have h2 : ((m a).id == i) = true := by
        have := hid a (by simpa using hb)
        simp [this]
      have e2 : (if (true = true) then m a else a) = m a := by simp
      rw [e2, h2]; rfl
    | false =>
      have e2 : (if (false = true) then m a else a) = a := by simp
      rw [e2, hb]
      exact ih

/-! ### Concrete fixtures used by witnesses and counterexamples -/

/-- The empty users table with the id sequence at 1 (Postgres default). -/
def dbEmpty : DB := { users := [], nextId := 1 }

/-- The create input used throughout the unit tests. -/
def dtoJohn : CreateUserDto :=
  { firstName := "John", lastName := "Doe", email := "john.doe@example.com",
    password := "SecurePass123!", roles := none, dateOfBirth := none,
    phoneNumber := none }

/-- The row `create dbEmpty 0 dtoJohn` persists. -/
def johnStored : User :=
  { id := 1, firstName := "John", lastName := "Doe",
    email := "john.doe@example.com", password := some "SecurePass123!",
    roles := ["user"], dateOfBirth := none, phoneNumber := none,
    isActive := true, createdAt := 0, updatedAt := 0 }

/-- The public-safe view of `johnStored`. -/
def johnPublic : User := stripPassword johnStored

/-- The table after `create dbEmpty 0 dtoJohn`. -/
def dbJohn : DB := { users := [johnStored], nextId := 2 }

/-- The all-absent update input. -/
def dtoNoneU : UpdateUserDto :=
  { firstName := none, lastName := none, email := none, password := none,
    roles := none, dateOfBirth := none, phoneNumber := none }

/-! ### Shape lemmas for the operations -/

theorem saveExisting_fst (db : DB) (t : Nat) (u : User) :
    (saveExisting db t u).1 = { u with updatedAt := t } := rfl

theorem saveExisting_users (db : DB) (t : Nat) (u : User) :
    (saveExisting db t u).2.users =
      db.users.map (fun old => if old.id == u.id then mergeRow u t old else old) :=
  rfl

/-- Looking up the saved row: the row with the entity's id got merged,
everything else untouched. -/
theorem findById_after_save (db : DB) (t : Nat) (u : User) :
    findByIdRaw (saveExisting db t u).2.users u.id =
      (findByIdRaw db.users u.id).map (mergeRow u t) := by
  have h := findByIdRaw_map_replace db.users u.id (mergeRow u t)
    (fun old _ => rfl)
  simpa [saveExisting] using h

/-- `findById_after_save` phrased at any index equal to the entity's id. -/
theorem findById_after_save' (db : DB) (t : Nat) (u : User) (i : Nat)
    (hui : u.id = i) :
    findByIdRaw (saveExisting db t u).2.users i =
      (findByIdRaw db.users i).map (mergeRow u t) := by
  subst hui
  exact findById_after_save db t u

theorem create_dup (db : DB) (t : Nat) (dto : CreateUserDto) (w : User)
    (hf : findByEmailRaw db.users dto.email = some w) :
    create db t dto = (.error .DuplicateEmail, db) := by
  unfold create; rw [hf]

theorem create_weak (db : DB) (t : Nat) (dto : CreateUserDto)
    (hf : findByEmailRaw db.users dto.email = none)
    (hp : isPasswordStrong dto.password = false) :
    create db t dto = (.error .WeakPassword, db) := by
  unfold create; rw [hf]; simp [hp]

theorem create_ok (db : DB) (t : Nat) (dto : CreateUserDto)
    (hf : findByEmailRaw db.users dto.email = none)
    (hp : isPasswordStrong dto.password = true) :
    create db t dto =
      (.ok (stripPassword (newUser db.nextId t dto)),
       { users := db.users ++ [newUser db.nextId t dto],
         nextId := db.nextId + 1 }) := by
  unfold create; rw [hf]; simp [hp]

theorem create_ok_inv (db : DB) (t : Nat) (dto : CreateUserDto) (u : User)
    (db' : DB) (h : create db t dto = (.ok u, db')) :
    findByEmailRaw db.users dto.email = none ∧
    isPasswordStrong dto.password = true ∧
    u = stripPassword (newUser db.nextId t dto) ∧
    db' = { users := db.users ++ [newUser db.nextId t dto],
            nextId := db.nextId + 1 } := by
  cases hf : findByEmailRaw db.users dto.email with
  | some w => rw [create_dup db t dto w hf] at h; simp at h
  | none =>
    by_cases hp : isPasswordStrong dto.password = true
    · rw [create_ok db t dto hf hp] at h
      simp only [Prod.mk.injEq, Except.ok.injEq] at h
      exact ⟨rfl, hp, h.1.symm, h.2.symm⟩
    · rw [create_weak db t dto hf (by simpa using hp)] at h
      simp at h

theorem update_notfound (db : DB) (t : Nat) (i : Nat) (dto : UpdateUserDto)
    (hf : findByIdRaw db.users i = none) :
    update db t i dto = (.error .NotFound, db) := by
  unfold update; rw [hf]

theorem update_ok (db : DB) (t : Nat) (i : Nat) (dto : UpdateUserDto)
    (u0 : User) (hf : findByIdRaw db.users i = some u0)
    (hc : emailConflictCheck db.users { u0 with password := none } dto = false) :
    update db t i dto =
      (.ok (stripPassword
              ((saveExisting db t (assignDto { u0 with password := none } dto)).1)),
       (saveExisting db t (assignDto { u0 with password := none } dto)).2) := by
  unfold update; rw [hf]
  simp only [hc, Bool.false_eq_true, if_false]

theorem update_ok_inv (db : DB) (t : Nat) (i : Nat) (dto : UpdateUserDto)
    (u : User) (db' : DB) (h : update db t i dto = (.ok u, db')) :
    ∃ u0, findByIdRaw db.users i = some u0 ∧
      emailConflictCheck db.users { u0 with password := none } dto = false ∧
      u = stripPassword
            ((saveExisting db t (assignDto { u0 with password := none } dto)).1) ∧
      db' = (saveExisting db t (assignDto { u0 with password := none } dto)).2 := by
  cases hf : findByIdRaw db.users i with
  | none => rw [update_notfound db t i dto hf] at h; simp at h
  | some u0 =>
    by_cases hc : emailConflictCheck db.users { u0 with password := none } dto = true
    · unfold update at h
      rw [hf] at h
      simp only [hc, if_true] at h
      simp at h
    · have hc' : emailConflictCheck db.users { u0 with password := none } dto = false := by
        simpa using hc
      rw [update_ok db t i dto u0 hf hc'] at h
      simp only [Prod.mk.injEq, Except.ok.injEq] at h
      exact ⟨u0, rfl, hc', h.1.symm, h.2.symm⟩

theorem deactivate_ok (db : DB) (t : Nat) (i : Nat) (u0 : User)
    (hf : findByIdRaw db.users i = some u0) :
    deactivate db t i =
      (.ok (stripPassword
              ((saveExisting db t { u0 with password := none, isActive := false }).1)),
       (saveExisting db t { u0 with password := none, isActive := false }).2) := by
  unfold deactivate; rw [hf]

theorem activate_ok (db : DB) (t : Nat) (i : Nat) (u0 : User)
    (hf : findByIdRaw db.users i = some u0) :
    activate db t i =
      (.ok (stripPassword
              ((saveExisting db t { u0 with password := none, isActive := true }).1)),
       (saveExisting db t { u0 with password := none, isActive := true }).2) := by
  unfold activate; rw [hf]

theorem deactivate_ok_inv (db : DB) (t : Nat) (i : Nat) (u : User) (db' : DB)
    (h : deactivate db t i = (.ok u, db')) :
    ∃ u0, findByIdRaw db.users i = some u0 ∧
      u = stripPassword
            ((saveExisting db t { u0 with password := none, isActive := false }).1) ∧
      db' = (saveExisting db t { u0 with password := none, isActive := false }).2 := by
  cases hf : findByIdRaw db.users i with
  | none => unfold deactivate at h; rw [hf] at h; simp at h
  | some u0 =>
    rw [deactivate_ok db t i u0 hf] at h
    simp only [Prod.mk.injEq, Except.ok.injEq] at h
    exact ⟨u0, rfl, h.1.symm, h.2.symm⟩

theorem activate_ok_inv (db : DB) (t : Nat) (i : Nat) (u : User) (db' : DB)
    (h : activate db t i = (.ok u, db')) :
    ∃ u0, findByIdRaw db.users i = some u0 ∧
      u = stripPassword
            ((saveExisting db t { u0 with password := none, isActive := true }).1) ∧
      db' = (saveExisting db t { u0 with password := none, isActive := true }).2 := by
  cases hf : findByIdRaw db.users i with
  | none => unfold activate at h; rw [hf] at h; simp at h
  | some u0 =>
    rw [activate_ok db t i u0 hf] at h
    simp only [Prod.mk.injEq, Except.ok.injEq] at h
    exact ⟨u0, rfl, h.1.symm, h.2.symm⟩

/-! ### Claims -/

/-- C1: every operation that returns a User or list of Users to a caller
other than `findByEmailForAuth` — `create`, `findAll`,
`findByActiveStatus`, `findOne`, `findByEmail`, `update`, `deactivate`,
`activate` — returns values whose `password` field is absent, including
the value returned immediately after a successful create or update. -/
theorem C1_password_never_returned :
    (∀ db t dto u db', create db t dto = (.ok u, db') → u.password = none) ∧
    (∀ db u, u ∈ findAll db → u.password = none) ∧
    (∀ db b u, u ∈ findByActiveStatus db b → u.password = none) ∧
    (∀ db i u, findOne db i = .ok u → u.password = none) ∧
    (∀ db e u, findByEmail db e = some u → u.password = none) ∧
    (∀ db t i dto u db', update db t i dto = (.ok u, db') → u.password = none) ∧
    (∀ db t i u db', deactivate db t i = (.ok u, db') → u.password = none) ∧
    (∀ db t i u db', activate db t i = (.ok u, db') → u.password = none) := by
  refine ⟨?_, ?_, ?_, ?_, ?_, ?_, ?_, ?_⟩
  · intro db t dto u db' h
    obtain ⟨-, -, hu, -⟩ := create_ok_inv db t dto u db' h
    rw [hu]; rfl
  · intro db u hu
    obtain ⟨v, -, hv⟩ := List.mem_map.mp hu
    rw [← hv]; rfl
  · intro db b u hu
    obtain ⟨v, -, hv⟩ := List.mem_map.mp hu
    rw [← hv]; rfl
  · intro db i u h
    unfold findOne at h
    cases hf : findByIdRaw db.users i with
    | none => rw [hf] at h; simp at h
    | some v =>
      rw [hf] at h
      simp only [Except.ok.injEq] at h
      rw [← h]; rfl
  · intro db e u h
    unfold findByEmail at h
    cases hf : findByEmailRaw db.users e with
    | none => rw [hf] at h; simp at h
    | some v =>
      rw [hf] at h
      simp only [Option.map_some', Option.some.injEq] at h
      rw [← h]; rfl
  · intro db t i dto u db' h
    obtain ⟨u0, -, -, hu, -⟩ := update_ok_inv db t i dto u db' h
    rw [hu]; rfl
  · intro db t i u db' h
    obtain ⟨u0, -, hu, -⟩ := deactivate_ok_inv db t i u db' h
    rw [hu]; rfl
  · intro db t i u db' h
    obtain ⟨u0, -, hu, -⟩ := activate_ok_inv db t i u db' h
    rw [hu]; rfl

/-- C1 witness: on the concrete test fixture, `create` succeeds and the
returned value has no password. -/
theorem C1_password_never_returned_witness :
    create dbEmpty 0 dtoJohn = (.ok johnPublic, dbJohn) ∧
    johnPublic.password = none :=
  ⟨rfl, C1_password_never_returned.1 dbEmpty 0 dtoJohn johnPublic dbJohn rfl⟩

/-- C3: for a create input whose email is not already taken, `create`
fails with `WeakPassword` exactly when the password lacks an uppercase
letter, a lowercase letter, a digit, or a symbol from the defined
punctuation set; in particular with password `"weak"` it fails with
`WeakPassword` and with `"SecurePass123!"` it succeeds. -/
theorem C3_weak_password_iff :
    (∀ db t dto, (∀ u ∈ db.users, u.email ≠ dto.email) →
      ((create db t dto).1 = .error .WeakPassword ↔
        ¬(hasUpperCase dto.password = true ∧ hasLowerCase dto.password = true ∧
          hasNumbers dto.password = true ∧ hasSpecialChar dto.password = true))) ∧
    (create dbEmpty 0 { dtoJohn with password := "weak" }).1 =
      .error .WeakPassword ∧
    (create dbEmpty 0 dtoJohn).1 = .ok johnPublic := by
  refine ⟨?_, rfl, rfl⟩
  intro db t dto hfree
  have hf : findByEmailRaw db.users dto.email = none := by
    apply List.find?_eq_none.mpr
    intro x hx
    simp [hfree x hx]
  by_cases hp : isPasswordStrong dto.password = true
  · rw [create_ok db t dto hf hp]
    have h4 := hp
    unfold isPasswordStrong at h4
    simp only [Bool.and_eq_true] at h4
    simp [h4.1.1.1, h4.1.1.2, h4.1.2, h4.2]
  · have hp' : isPasswordStrong dto.password = false := by simpa using hp
    rw [create_weak db t dto hf hp']
    constructor
    · intro _ hcontra
      obtain ⟨a, b, c, d⟩ := hcontra
      unfold isPasswordStrong at hp'
      rw [a, b, c, d] at hp'
      simp at hp'
    · intro _
      rfl

/-- C3 witness: the empty table has no row with the email, and the
equivalence instantiated at password `"weak"` holds. -/
theorem C3_weak_password_iff_witness :
    (∀ u ∈ dbEmpty.users, u.email ≠ dtoJohn.email) ∧
    ((create dbEmpty 3 { dtoJohn with password := "weak" }).1 =
        .error .WeakPassword ↔
      ¬(hasUpperCase "weak" = true ∧ hasLowerCase "weak" = true ∧
        hasNumbers "weak" = true ∧ hasSpecialChar "weak" = true)) :=
  ⟨by simp [dbEmpty],
   C3_weak_password_iff.1 dbEmpty 3 { dtoJohn with password := "weak" }
     (by simp [dbEmpty])⟩

/-- C4: creating with an email already held by some User fails with
`DuplicateEmail` and persists nothing: `findAll` afterwards returns
exactly what it returned before; on the concrete scenario, after
creating `A`, creating `B` with the same email fails and `findAll`
still returns exactly one User. -/
theorem C4_duplicate_email :
    (∀ db t dto, (∃ u ∈ db.users, u.email = dto.email) →
      create db t dto = (.error .DuplicateEmail, db) ∧
      findAll (create db t dto).2 = findAll db) ∧
    (create dbJohn 1 { dtoJohn with firstName := "Bob" } =
      (.error .DuplicateEmail, dbJohn) ∧
     (findAll dbJohn).length = 1) := by
  refine ⟨?_, rfl, rfl⟩
  intro db t dto hex
  obtain ⟨u, hu, he⟩ := hex
  have hsome : ∃ w, findByEmailRaw db.users dto.email = some w := by
    cases hf : findByEmailRaw db.users dto.email with
    | some w => exact ⟨w, rfl⟩
    | none =>
      have hnone := List.find?_eq_none.mp hf u hu
      simp [he] at hnone
  obtain ⟨w, hw⟩ := hsome
  refine ⟨create_dup db t dto w hw, ?_⟩
  rw [create_dup db t dto w hw]

/-- C4 witness: `dbJohn` holds a row with `dtoJohn`'s email, and the
repeat create fails with `DuplicateEmail` leaving `findAll` unchanged. -/
theorem C4_duplicate_email_witness :
    (∃ u ∈ dbJohn.users, u.email = dtoJohn.email) ∧
    (create dbJohn 1 dtoJohn = (.error .DuplicateEmail, dbJohn) ∧
     findAll (create dbJohn 1 dtoJohn).2 = findAll dbJohn) :=
  ⟨⟨johnStored, by simp [dbJohn], rfl⟩,
   C4_duplicate_email.1 dbJohn 1 dtoJohn ⟨johnStored, by simp [dbJohn], rfl⟩⟩

/-- C6: on a well-formed table, `create` followed by `findOne` on the
returned id yields exactly the value `create` returned (the password
field being absent in both). -/
theorem C6_create_then_findOne :
    ∀ db t dto u db', wfDB db → create db t dto = (.ok u, db') →
      findOne db' u.id = .ok u ∧ u.password = none := by
  intro db t dto u db' hwf h
  obtain ⟨hf, hp, hu, hdb⟩ := create_ok_inv db t dto u db' h
  subst hu hdb
  refine ⟨?_, rfl⟩
  unfold findOne
  have hid : (stripPassword (newUser db.nextId t dto)).id = db.nextId := rfl
  have hfind : findByIdRaw (db.users ++ [newUser db.nextId t dto]) db.nextId =
      some (newUser db.nextId t dto) := by
    unfold findByIdRaw
    rw [List.find?_append]
    have h1 : db.users.find? (fun u => u.id == db.nextId) = none := by
      apply List.find?_eq_none.mpr
      intro x hx
      have hlt := hwf.2 x hx
      simp only [beq_iff_eq]
      omega
    rw [h1]
    simp [newUser]
  rw [hid, hfind]

/-- C6 witness: the empty table is well-formed and the round trip holds
on the concrete fixture. -/
theorem C6_create_then_findOne_witness :
    wfDB dbEmpty ∧ create dbEmpty 0 dtoJohn = (.ok johnPublic, dbJohn) ∧
    (findOne dbJohn johnPublic.id = .ok johnPublic ∧
     johnPublic.password = none) :=
  ⟨by decide, rfl,
   C6_create_then_findOne dbEmpty 0 dtoJohn johnPublic dbJohn (by decide) rfl⟩

/-- C9: hashing is the identity, and after a successful create the
auth lookup on that email returns the record including the stored
password representation, which is the input password unchanged. -/
theorem C9_auth_returns_plaintext :
    (∀ p, hashPassword p = p) ∧
    (∀ db t dto u db', create db t dto = (.ok u, db') →
      (findByEmailForAuth db' dto.email).map (fun w => w.password) =
        some (some dto.password)) := by
  refine ⟨fun p => rfl, ?_⟩
  intro db t dto u db' h
  obtain ⟨hf, hp, hu, hdb⟩ := create_ok_inv db t dto u db' h
  subst hdb
  unfold findByEmailForAuth findByEmailRaw
  rw [List.find?_append]
  unfold findByEmailRaw at hf
  rw [hf]
  simp [newUser, hashPassword, List.find?_cons]

/-- C9 witness: on the concrete fixture the auth lookup returns the
plaintext password stored by create. -/
theorem C9_auth_returns_plaintext_witness :
    create dbEmpty 0 dtoJohn = (.ok johnPublic, dbJohn) ∧
    (findByEmailForAuth dbJohn dtoJohn.email).map (fun w => w.password) =
      some (some dtoJohn.password) :=
  ⟨rfl, C9_auth_returns_plaintext.2 dbEmpty 0 dtoJohn johnPublic dbJohn rfl⟩

/-- C8: `remove(id)` fails with `NotFound` exactly when no User with
that id exists (no row affected), leaves the table untouched in that
case, returns no value on success, and after a successful `remove(id)`
a subsequent `findOne(id)` fails with `NotFound`. -/
theorem C8_remove_notfound :
    (∀ db i, (remove db i).1 = .error .NotFound ↔ ∀ u ∈ db.users, u.id ≠ i) ∧
    (∀ db i, (remove db i).1 = .error .NotFound → (remove db i).2 = db) ∧
    (∀ db i db', remove db i = (.ok (), db') →
      findOne db' i = .error .NotFound) := by
  refine ⟨?_, ?_, ?_⟩
  · intro db i
    unfold remove
    cases hc : ((db.users.filter (fun u => !(u.id == i))).length ==
        db.users.length) with
    | true =>
      simp only [if_true]
      have hlen := (filter_length_eq_iff (fun u => !(u.id == i)) db.users).mp
        (by simpa using hc)
      constructor
      · intro _ u hu
        have := hlen u hu
        simpa using this
      · intro _; trivial
    | false =>
      simp only [Bool.false_eq_true, if_false]
      constructor
      · intro h; simp at h
      · intro hall
        have : (db.users.filter (fun u => !(u.id == i))).length =
            db.users.length := by
          apply (filter_length_eq_iff _ _).mpr
          intro u hu
          simpa using hall u hu
        rw [this] at hc
        simp at hc
  · intro db i h
    unfold remove at h ⊢
    cases hc : ((db.users.filter (fun u => !(u.id == i))).length ==
        db.users.length) with
    | true => rfl
    | false => rw [hc] at h; simp at h
  · intro db i db' h
    unfold remove at h
    cases hc : ((db.users.filter (fun u => !(u.id == i))).length ==
        db.users.length) with
    | true => rw [hc] at h; simp at h
    | false =>
      rw [hc] at h
      simp only [Bool.false_eq_true, if_false, Prod.mk.injEq] at h
      have hdb' : db' =
          { db with users := db.users.filter (fun u => !(u.id == i)) } :=
        h.2.symm
      subst hdb'
      unfold findOne
      have hnone : findByIdRaw
          (db.users.filter (fun u => !(u.id == i))) i = none := by
        apply List.find?_eq_none.mpr
        intro x hx
        have := (List.mem_filter.mp hx).2
        simpa using this
      rw [hnone]

/-- The table after removing the only User from `dbJohn`. -/
def dbRemoved : DB := { users := [], nextId := 2 }

/-- C8 witness: removing the only User succeeds and the follow-up
lookup fails with `NotFound`. -/
theorem C8_remove_notfound_witness :
    remove dbJohn 1 = (.ok (), dbRemoved) ∧
    findOne dbRemoved 1 = .error .NotFound :=
  ⟨rfl, C8_remove_notfound.2.2 dbJohn 1 dbRemoved rfl⟩

/-- The update input that carries only a password. -/
def pwOnly (p : String) : UpdateUserDto :=
  { firstName := none, lastName := none, email := none, password := some p,
    roles := none, dateOfBirth := none, phoneNumber := none }

/-- C10: `update` never raises `WeakPassword` — no password-strength
check runs outside `create` — and `update(id, \x7bpassword: p\x7d)` on an
existing id succeeds for every string `p` and stores `p` untransformed. -/
theorem C10_update_password_unchecked :
    (∀ db t i dto, (update db t i dto).1 ≠ .error .WeakPassword) ∧
    (∀ db t i p u0, findByIdRaw db.users i = some u0 →
      (update db t i (pwOnly p)).1 =
        .ok { u0 with password := none, updatedAt := t } ∧
      findByIdRaw (update db t i (pwOnly p)).2.users i =
        some { u0 with password := some p, updatedAt := t }) := by
  constructor
  · intro db t i dto
    cases hf : findByIdRaw db.users i with
    | none => rw [update_notfound db t i dto hf]; simp
    | some u0 =>
      by_cases hc : emailConflictCheck db.users { u0 with password := none }
          dto = true
      · unfold update
        rw [hf]
        simp [hc]
      · rw [update_ok db t i dto u0 hf (by simpa using hc)]
        simp
  · intro db t i p u0 hf
    have hid0 : u0.id = i := by
      have := List.find?_some hf
      simpa using this
    have hok := update_ok db t i (pwOnly p) u0 hf rfl
    constructor
    · rw [hok]
      rfl
    · have h2 : (update db t i (pwOnly p)).2 =
          (saveExisting db t
            (assignDto { u0 with password := none } (pwOnly p))).2 := by
        rw [hok]
      have hida : (assignDto { u0 with password := none } (pwOnly p)).id = i :=
        hid0
      rw [h2, findById_after_save' db t _ i hida, hf]
      rfl

/-- C10 witness: updating the password of the stored User to the weak
string `"weak"` succeeds and stores it verbatim. -/
theorem C10_update_password_unchecked_witness :
    findByIdRaw dbJohn.users 1 = some johnStored ∧
    ((update dbJohn 7 1 (pwOnly "weak")).1 =
       .ok { johnStored with password := none, updatedAt := 7 } ∧
     findByIdRaw (update dbJohn 7 1 (pwOnly "weak")).2.users 1 =
       some { johnStored with password := some "weak", updatedAt := 7 }) :=
  ⟨rfl, C10_update_password_unchecked.2 dbJohn 7 1 "weak" johnStored rfl⟩

/-- C5: `update(id, partial)` on an existing id overwrites exactly the
fields present in the partial input and refreshes `updatedAt`; every
field not present retains its prior value (`id`, `isActive` and
`createdAt` cannot appear in the input and are always retained), both
in the returned value and in the stored row; in particular
`update(id, \x7bfirstName: "Jane"\x7d)` changes only `firstName` and
`updatedAt`. -/
theorem C5_update_frame :
    (∀ db t i dto u db' u0,
      findByIdRaw db.users i = some u0 →
      update db t i dto = (.ok u, db') →
      (u.id = u0.id ∧
       u.firstName = dto.firstName.getD u0.firstName ∧
       u.lastName = dto.lastName.getD u0.lastName ∧
       u.email = dto.email.getD u0.email ∧
       u.roles = dto.roles.getD u0.roles ∧
       u.dateOfBirth = dto.dateOfBirth.or u0.dateOfBirth ∧
       u.phoneNumber = dto.phoneNumber.or u0.phoneNumber ∧
       u.isActive = u0.isActive ∧
       u.createdAt = u0.createdAt ∧
       u.updatedAt = t ∧
       u.password = none) ∧
      findByIdRaw db'.users i = some
        { id := u0.id
          firstName := dto.firstName.getD u0.firstName
          lastName := dto.lastName.getD u0.lastName
          email := dto.email.getD u0.email
          password := dto.password.or u0.password
          roles := dto.roles.getD u0.roles
          dateOfBirth := dto.dateOfBirth.or u0.dateOfBirth
          phoneNumber := dto.phoneNumber.or u0.phoneNumber
          isActive := u0.isActive
          createdAt := u0.createdAt
          updatedAt := t }) ∧
    (update dbJohn 5 1 { dtoNoneU with firstName := some "Jane" }).1 =
      .ok { johnPublic with firstName := "Jane", updatedAt := 5 } := by
  refine ⟨?_, rfl⟩
  intro db t i dto u db' u0 hf h
  obtain ⟨df, dl, de, dp, dr, dd, dph⟩ := dto
  obtain ⟨w0, hw0, hc, hu, hdb⟩ := update_ok_inv db t i _ u db' h
  rw [hf] at hw0
  injection hw0 with hw0
  subst hw0
  subst hu hdb
  have hid0 : u0.id = i := by
    have := List.find?_some hf
    simpa using this
  refine ⟨⟨rfl, rfl, rfl, rfl, rfl, ?_, ?_, rfl, rfl, rfl, rfl⟩, ?_⟩
  · cases dd <;> rfl
  · cases dph <;> rfl
  · have hida : (assignDto { u0 with password := none }
        ⟨df, dl, de, dp, dr, dd, dph⟩).id = i := hid0
    rw [findById_after_save' db t _ i hida, hf]
    cases dp <;> cases dd <;> cases dph <;> rfl

/-- The update input of the concrete C5 scenario. -/
def dtoJane : UpdateUserDto := { dtoNoneU with firstName := some "Jane" }

/-- The value returned by the concrete C5 update. -/
def janePublic : User := { johnPublic with firstName := "Jane", updatedAt := 5 }

/-- The table after the concrete C5 update. -/
def dbJane : DB :=
  { users := [{ johnStored with firstName := "Jane", updatedAt := 5 }],
    nextId := 2 }

/-- C5 witness: the concrete update on the stored fixture User changes
only `firstName` and `updatedAt`. -/
theorem C5_update_frame_witness :
    findByIdRaw dbJohn.users 1 = some johnStored ∧
    update dbJohn 5 1 dtoJane = (.ok janePublic, dbJane) ∧
    (janePublic.firstName = "Jane" ∧ janePublic.lastName = johnStored.lastName ∧
     janePublic.updatedAt = 5) := by
  refine ⟨rfl, rfl, ?_⟩
  have h := (C5_update_frame.1 dbJohn 5 1 dtoJane janePublic dbJane johnStored
    rfl rfl).1
  obtain ⟨-, h1, h2, -, -, -, -, -, -, h3, -⟩ := h
  exact ⟨h1, h2, h3⟩

/-- C7: on an existing id, `deactivate(id)` then `activate(id)` restores
`isActive` to `true` and leaves every other field unchanged, except
`updatedAt`, which advances monotonically with each of the two calls
(the clock values of the two saves being later than the row's previous
`updatedAt` and increasing). -/
theorem C7_deactivate_then_activate :
    ∀ db t1 t2 i u0,
      findByIdRaw db.users i = some u0 →
      u0.updatedAt < t1 → t1 < t2 →
      (deactivate db t1 i).1 =
        .ok { u0 with password := none, isActive := false, updatedAt := t1 } ∧
      (activate (deactivate db t1 i).2 t2 i).1 =
        .ok { u0 with password := none, isActive := true, updatedAt := t2 } ∧
      findByIdRaw (activate (deactivate db t1 i).2 t2 i).2.users i =
        some { u0 with isActive := true, updatedAt := t2 } ∧
      u0.updatedAt < t1 ∧ t1 < t2 := by
  intro db t1 t2 i u0 hf h1 h2
  have hid0 : u0.id = i := by
    have := List.find?_some hf
    simpa using this
  have hd := deactivate_ok db t1 i u0 hf
  have hdb1 : (deactivate db t1 i).2 =
      (saveExisting db t1 { u0 with password := none, isActive := false }).2 := by
    rw [hd]
  have hida1 : ({ u0 with password := none, isActive := false } : User).id = i :=
    hid0
  have hfind1 : findByIdRaw (deactivate db t1 i).2.users i =
      some { u0 with isActive := false, updatedAt := t1 } := by
    rw [hdb1, findById_after_save' db t1 _ i hida1, hf]
    rfl
  have ha := activate_ok (deactivate db t1 i).2 t2 i
    { u0 with isActive := false, updatedAt := t1 } hfind1
  refine ⟨by rw [hd]; rfl, by rw [ha]; rfl, ?_, h1, h2⟩
  have hdb2 : (activate (deactivate db t1 i).2 t2 i).2 =
      (saveExisting (deactivate db t1 i).2 t2
        { u0 with password := none, isActive := true, updatedAt := t1 }).2 := by
    rw [ha]
  have hida2 : ({ u0 with
      password := none
      isActive := true
      updatedAt := t1 } : User).id = i := hid0
  rw [hdb2, findById_after_save' (deactivate db t1 i).2 t2 _ i hida2, hfind1]
  rfl

/-- C7 witness: deactivating then activating the stored fixture User at
clocks 1 and 2 restores `isActive` and advances `updatedAt`. -/
theorem C7_deactivate_then_activate_witness :
    findByIdRaw dbJohn.users 1 = some johnStored ∧
    johnStored.updatedAt < 1 ∧ (1 : Nat) < 2 ∧
    (deactivate dbJohn 1 1).1 =
      .ok { johnStored with
            password := none
            isActive := false
            updatedAt := 1 } ∧
    (activate (deactivate dbJohn 1 1).2 2 1).1 =
      .ok { johnStored with
            password := none
            isActive := true
            updatedAt := 2 } := by
  have h := C7_deactivate_then_activate dbJohn 1 2 1 johnStored rfl
    (by decide) (by decide)
  exact ⟨rfl, by decide, by decide, h.1, h.2.1⟩

/-- C2 counterexample: a create input whose `roles` field is present but
an empty list passes every DTO decorator (`@IsIn` with `each: true` is
vacuous on an empty array) and, because a present array — even empty —
is truthy in JavaScript, `createUserDto.roles || ['user']` keeps it, so
the created User's roles list is empty: the claimed invariant "no
create or update input can produce a User whose roles list is empty"
fails. -/
theorem C2_roles_counterexample :
    validateCreateDto { dtoJohn with roles := some [] } = true ∧
    (createEndpoint dbEmpty 0 { dtoJohn with roles := some [] }).1 =
      .ok { johnPublic with roles := [] } :=
  ⟨rfl, rfl⟩

/-- C2 amended: `create` defaults roles to `["user"]` when the input
omits them; any input containing a role outside
`\x7b"user","admin","moderator"\x7d` is rejected at input; and the roles
list of a User produced by create or update is nonempty provided the
input's roles field, when present, is itself nonempty (an explicitly
empty roles list is accepted and produces a User with empty roles). -/
theorem C2_roles_amended :
    (∀ db t dto u db', dto.roles = none → create db t dto = (.ok u, db') →
      u.roles = ["user"]) ∧
    (∀ db t dto rs r, dto.roles = some rs → r ∈ rs → validRole r = false →
      createEndpoint db t dto = (.error .Validation, db)) ∧
    (∀ db t dto u db', dto.roles ≠ some [] → create db t dto = (.ok u, db') →
      u.roles ≠ []) ∧
    (∀ db t i dto u db' u0, findByIdRaw db.users i = some u0 →
      u0.roles ≠ [] → dto.roles ≠ some [] →
      update db t i dto = (.ok u, db') → u.roles ≠ []) := by
  refine ⟨?_, ?_, ?_, ?_⟩
  · intro db t dto u db' hr h
    obtain ⟨-, -, hu, -⟩ := create_ok_inv db t dto u db' h
    subst hu
    show (newUser db.nextId t dto).roles = ["user"]
    unfold newUser
    rw [hr]
    rfl
  · intro db t dto rs r hroles hr hvr
    have hall : rs.all validRole = false := by
      cases hall : rs.all validRole with
      | false => rfl
      | true => exact absurd (List.all_eq_true.mp hall r hr) (by simp [hvr])
    have hv : validateCreateDto dto = false := by
      unfold validateCreateDto
      rw [hroles]
      simp [hall]
    unfold createEndpoint
    rw [hv]
    simp
  · intro db t dto u db' hne h
    obtain ⟨-, -, hu, -⟩ := create_ok_inv db t dto u db' h
    subst hu
    show (newUser db.nextId t dto).roles ≠ []
    unfold newUser
    cases hr : dto.roles with
    | none => simp
    | some rs =>
      rw [hr] at hne
      simpa using fun hrs => hne (by rw [hrs])
  · intro db t i dto u db' u0 hf hr0 hne h
    obtain ⟨w0, hw0, hc, hu, hdb⟩ := update_ok_inv db t i dto u db' h
    rw [hf] at hw0
    injection hw0 with hw0
    subst hw0
    subst hu
    show (assignDto { u0 with password := none } dto).roles ≠ []
    unfold assignDto
    cases hr : dto.roles with
    | none => simpa using hr0
    | some rs =>
      rw [hr] at hne
      simpa using fun hrs => hne (by rw [hrs])

/-- C2 amended witness: the fixture input omits roles and the created
User's roles list is `["user"]`. -/
theorem C2_roles_amended_witness :
    dtoJohn.roles = none ∧
    create dbEmpty 0 dtoJohn = (.ok johnPublic, dbJohn) ∧
    johnPublic.roles = ["user"] :=
  ⟨rfl, rfl, C2_roles_amended.1 dbEmpty 0 dtoJohn johnPublic dbJohn rfl rfl⟩
